import Mathlib

/-!
Shallow embedding of the deferred UI composition engine of `evergreen_egui`
(files `src/command.rs`, `src/responder.rs`, `src/ui.rs`, `src/widget.rs`).

Rust machine types that matter here are only used as opaque identities, so
they are embedded as `Nat`:
* a region's teardown-data *type* becomes a runtime type tag (`Entry.tag`),
  following spec §9 ("explicit runtime type tag checked on pop");
* a region's teardown data / content handle becomes `Entry.data`;
* a cached computation unit's static type key becomes a `Nat` key;
* an `egui::Response` becomes a `Nat`.

The `UiStack` resource itself is referenced by `command.rs`
(`crate::ui::UiStack`) but its definition is not part of the sources at
hand, so it is modelled from the spec (§4.1, §9); every definition marked
`Modelled from the spec:` below follows the spec's words, everything else
follows the Rust source it names.
-/

/-- One entry of the region stack: the runtime type tag of the teardown
data together with the (abstracted) teardown data / content handle. -/
structure Entry where
  tag : Nat
  data : Nat
deriving DecidableEq, Repr

/-- Modelled from the spec: the `UiStack` type (`crate::ui::UiStack`, not
present in the given sources) is "a type-erased last-in-first-out stack of
open region handles" (§2); the head of the list is the most recently
opened region. -/
def UiStack := List Entry
deriving DecidableEq, Repr

/-- Modelled from the spec: `push(data)` stores typed region-teardown
data (§4.1). -/
def UiStack.push (s : UiStack) (e : Entry) : UiStack := e :: s

/-- Modelled from the spec: `pop<T>()` "removes and downcasts the top
entry to the caller-expected type, yielding nothing ... if the stack is
empty or the type does not match" (§4.1); the runtime type tag is checked
on pop (§9).  Returns the popped entry (when the tag matches) and the
remaining stack. -/
def UiStack.pop (s : UiStack) (t : Nat) : Option Entry × UiStack :=
  match s with
  | [] => (none, [])
  | e :: rest => if e.tag = t then (some e, rest) else (none, rest)

/-- Modelled from the spec: `top_mut()` yields the innermost content
handle, or nothing if the stack is empty (§4.1). -/
def UiStack.topEntry (s : UiStack) : Option Entry := s.head?

/-- Modelled from the spec: `len()` reports current depth (§4.1). -/
def UiStack.len (s : UiStack) : Nat := s.length

/-- The diagnostics the commands in `src/command.rs` can emit via
`warn!`, one constructor per distinct message string. -/
inductive Warning
| noEguiContext        -- "No egui context found"
| noUiStack            -- "No UiStack found"
| containerNotEnded    -- "Container was not ended"
| noRootStarted        -- "No Root was started"
| noParentUi           -- "No parent Ui found"
| noContainerStarted   -- "No Container was started"
| noUiFound            -- "No Ui found"
deriving DecidableEq, Repr

/-- A responder (`src/responder.rs`): either the no-op responder `()` or a
`SystemResponder` holding a cached computation unit identified by the
static type key of its system. -/
inductive Resp
| noop
| system (key : Nat)
deriving DecidableEq, Repr

/-- The observable slice of the Bevy `World` the engine touches: the
active egui context, the `UiStack` resource, the emitted diagnostics, the
log of `EndRoot::end` / `EndContainer::end` calls, the log of widget
draws, and the cached-system registry with its invocation logs.
`broken` is the set of unit keys for which `run_system_cached_with`
returns a `RegisteredSystemError` (the external shared-state container
may report "a registration error", spec §6). -/
structure SimWorld where
  ctx : Option Nat
  stack : Option UiStack
  warnings : List Warning
  rootEnds : List (Nat × Nat)
  containerEnds : List (Nat × Nat)
  draws : List Nat
  registry : List Nat
  broken : List Nat
  invocations : List (Nat × Nat)
  drawInvocations : List (Nat × Nat × Nat)
deriving DecidableEq, Repr

/-- `World::run_system_cached_with` for a responder system taking an
`egui::Response` as input: on a broken key the call fails with a
`RegisteredSystemError`; otherwise the system is registered once (keyed by
its static type) and invoked with the given input. -/
def runResponseSystem (w : SimWorld) (key input : Nat) : SimWorld × Option Nat :=
  if key ∈ w.broken then (w, none)
  else
    ({ w with
        registry := if key ∈ w.registry then w.registry else w.registry ++ [key],
        invocations := w.invocations ++ [(key, input)] }, some 0)

/-- `World::run_system_cached_with` for a widget system taking a
`Draw { ui, extra }` as input (`WorldUi::run_cached_with`, src/ui.rs):
same registration behaviour, the invocation log records the content
handle and the extra value actually passed. -/
def runDrawSystem (w : SimWorld) (key ui extra : Nat) : SimWorld × Option Nat :=
  if key ∈ w.broken then (w, none)
  else
    ({ w with
        registry := if key ∈ w.registry then w.registry else w.registry ++ [key],
        drawInvocations := w.drawInvocations ++ [(key, ui, extra)] }, some 0)

/-- `Responder::respond` (src/responder.rs): the impl for `()` does
nothing; `SystemResponder::respond` runs the cached unit with the
response as input and discards the `Result`
(`let _ = world.run_system_cached_with(self.0, response)`). -/
def Resp.respond : Resp → SimWorld → Nat → SimWorld
| .noop, w, _ => w
| .system k, w, r => (runResponseSystem w k r).1

/-- A deferred command (src/command.rs).  `startRoot`/`startContainer`
carry the tag and the teardown data their `begin` call will produce;
`endRoot`/`endContainer` carry the tag of the teardown-data type their
`end` call expects (for a root built by `into_root` both halves share one
`Data` type, hence one tag). -/
inductive Cmd
| startRoot (tag data : Nat)
| endRoot (tag : Nat)
| startContainer (tag data : Nat)
| endContainer (tag : Nat) (respond : Resp)
| widget (w : Nat) (respond : Resp)
deriving DecidableEq, Repr

/-- `StartRootCommand::apply`: resolve the egui context (warn and return
when absent), run `BeginRoot::begin`, create a fresh `UiStack` holding
the produced data and insert it as a resource. -/
def applyStartRoot (t d : Nat) (w : SimWorld) : SimWorld :=
  match w.ctx with
  | none => { w with warnings := w.warnings ++ [.noEguiContext] }
  | some _ => { w with stack := some (UiStack.push [] ⟨t, d⟩) }

/-- `EndRootCommand::apply`: `remove_resource::<UiStack>` (warn and
return when absent), warn when `len() != 1`, pop the root's teardown
data (warn and return when the pop yields nothing), and run
`EndRoot::end` on it. -/
def applyEndRoot (t : Nat) (w : SimWorld) : SimWorld :=
  match w.stack with
  | none => { w with warnings := w.warnings ++ [.noUiStack] }
  | some stk =>
    let w1 := { w with stack := none }
    let w2 := if stk.len ≠ 1
      then { w1 with warnings := w1.warnings ++ [.containerNotEnded] }
      else w1
    match (stk.pop t).1 with
    | none => { w2 with warnings := w2.warnings ++ [.noRootStarted] }
    | some e => { w2 with rootEnds := w2.rootEnds ++ [(e.tag, e.data)] }

/-- `StartContainerCommand::apply`: no-op with a warning when the
`UiStack` resource is absent; otherwise fetch the parent via `top_mut`
(warn and return when the stack is empty), run `BeginContainer::begin`
and push the produced data. -/
def applyStartContainer (t d : Nat) (w : SimWorld) : SimWorld :=
  match w.stack with
  | none => { w with warnings := w.warnings ++ [.noUiStack] }
  | some stk =>
    match stk.topEntry with
    | none => { w with warnings := w.warnings ++ [.noParentUi] }
    | some _ => { w with stack := some (stk.push ⟨t, d⟩) }

/-- `EndContainerCommand::apply`: no-op with a warning when the `UiStack`
resource is absent; otherwise (inside `resource_scope`, so the responder
and the closer see a world without the stack) pop this container's data
(warn and return when the pop yields nothing), fetch the parent via
`top_mut` (warn and return when none remains), run `EndContainer::end`
to a response and hand it to the responder.  The response is abstracted
as the container's teardown data. -/
def applyEndContainer (t : Nat) (r : Resp) (w : SimWorld) : SimWorld :=
  match w.stack with
  | none => { w with warnings := w.warnings ++ [.noUiStack] }
  | some stk =>
    match stk.pop t with
    | (none, rest) =>
      { w with stack := some rest, warnings := w.warnings ++ [.noContainerStarted] }
    | (some e, rest) =>
      match rest.topEntry with
      | none => { w with stack := some rest, warnings := w.warnings ++ [.noParentUi] }
      | some _ =>
        let wScoped := { w with
          stack := none
          containerEnds := w.containerEnds ++ [(e.tag, e.data)] }
        let w' := r.respond wScoped e.data
        { w' with stack := some rest }

/-- `WidgetCommand::apply`: no-op with a warning when the `UiStack`
resource is absent; otherwise draw the widget against the stack's top
(warn and return when the stack is empty) and hand the response to the
responder.  The response is abstracted as the widget's identity. -/
def applyWidget (wd : Nat) (r : Resp) (w : SimWorld) : SimWorld :=
  match w.stack with
  | none => { w with warnings := w.warnings ++ [.noUiStack] }
  | some stk =>
    match stk.topEntry with
    | none => { w with warnings := w.warnings ++ [.noUiFound] }
    | some _ =>
      let wScoped := { w with stack := none, draws := w.draws ++ [wd] }
      let w' := r.respond wScoped wd
      { w' with stack := some stk }

/-- `Command::apply` dispatch for the five deferred commands. -/
def applyCmd : Cmd → SimWorld → SimWorld
| .startRoot t d, w => applyStartRoot t d w
| .endRoot t, w => applyEndRoot t w
| .startContainer t d, w => applyStartContainer t d w
| .endContainer t r, w => applyEndContainer t r w
| .widget wd r, w => applyWidget wd r w

/-- Draining the command queue: every command is applied exactly once,
in FIFO (enqueue) order. -/
def drain (l : List Cmd) (w : SimWorld) : SimWorld :=
  l.foldl (fun w c => applyCmd c w) w

/-- A root as produced by `IntoRoot::into_root`: one teardown-data type
tag shared by both halves and the data `begin` will produce. -/
structure RootSpec where
  tag : Nat
  data : Nat
deriving DecidableEq, Repr

/-- A container as produced by `IntoContainer::into_container`. -/
structure ContainerSpec where
  tag : Nat
  data : Nat
deriving DecidableEq, Repr

/-- `RootCommands::show` (src/command.rs): queue the `StartRootCommand`,
synchronously invoke the build closure on the same queue, then queue the
`EndRootCommand`.  The closure is modelled as a function on the queue. -/
def rootShow (root : RootSpec) (f : List Cmd → List Cmd) (q : List Cmd) : List Cmd :=
  f (q ++ [Cmd.startRoot root.tag root.data]) ++ [Cmd.endRoot root.tag]

/-- `UiCommands::show` (src/command.rs): queue the
`StartContainerCommand`, synchronously invoke the build closure on the
same queue, then queue the `EndContainerCommand` carrying the closer and
the supplied responder. -/
def uiShow (c : ContainerSpec) (r : Resp) (f : List Cmd → List Cmd) (q : List Cmd) :
    List Cmd :=
  f (q ++ [Cmd.startContainer c.tag c.data]) ++ [Cmd.endContainer c.tag r]

/-- `UiCommands::add` (src/command.rs): queue the `WidgetCommand`. -/
def uiAdd (wd : Nat) (r : Resp) (q : List Cmd) : List Cmd :=
  q ++ [Cmd.widget wd r]

/-- `WorldUi` (src/ui.rs): exclusive access to the world together with
the current region's content handle (`self.ui`), abstracted as its
identity. -/
structure WUi where
  world : SimWorld
  ui : Nat
deriving DecidableEq, Repr

/-- `WorldUi::run_cached_with` (src/ui.rs): runs the cached unit via
`world.run_system_cached_with(system, Draw::new(self.ui, extra))`, so
the unit's sole input is the current content handle paired with the
extra value supplied at this call site. -/
def WUi.run_cached_with (wu : WUi) (key extra : Nat) : WUi × Option Nat :=
  let p := runDrawSystem wu.world key wu.ui extra
  ({ wu with world := p.1 }, p.2)

/-- `Widget` (src/widget.rs): a one-shot description consumed by `draw`
against a `WorldUi`; mutation of the world and of the region's content
is threaded through the returned state. -/
structure WWidget (α : Type) where
  draw : WUi → WUi × α

/-- The `impl_widget_tuple!` instance of `Widget` at arity 2
(src/widget.rs): destructure the tuple, draw each component against a
reborrow of the same `WorldUi`, and tuple the results. -/
def tupleWidget2 {α β : Type} (a : WWidget α) (b : WWidget β) : WWidget (α × β) :=
  ⟨fun ui =>
    let pa := a.draw ui
    let pb := b.draw pa.1
    (pb.1, (pa.2, pb.2))⟩

/-- The `impl_widget_tuple!` instance of `Widget` at arity 3
(src/widget.rs). -/
def tupleWidget3 {α β γ : Type} (a : WWidget α) (b : WWidget β) (c : WWidget γ) :
    WWidget (α × β × γ) :=
  ⟨fun ui =>
    let pa := a.draw ui
    let pb := b.draw pa.1
    let pc := c.draw pb.1
    (pc.1, (pa.2, pb.2, pc.2))⟩

/-- A world with an active egui context and nothing else, shared by the
concrete evaluations below. -/
def baseWorld : SimWorld :=
  { ctx := some 0, stack := none, warnings := [], rootEnds := [],
    containerEnds := [], draws := [], registry := [], broken := [],
    invocations := [], drawInvocations := [] }

/-- A world with no active egui context, shared by the concrete
evaluations below. -/
def noCtxWorld : SimWorld :=
  { baseWorld with ctx := none }

/-- C1: each builder verb (`RootCommands::show`, `UiCommands::show`)
enqueues exactly the open command, then — because the build closure is
invoked synchronously at script-construction time — the commands the
closure enqueues, then the close command carrying the region's closer
tag and the supplied responder; no other interleaving is possible. -/
theorem show_enqueues_open_build_close
    (root : RootSpec) (c : ContainerSpec) (r : Resp)
    (f g : List Cmd → List Cmd) (q : List Cmd)
    (hf : ∀ q', ∃ d, f q' = q' ++ d)
    (hg : ∀ q', ∃ d, g q' = q' ++ d) :
    (∃ inner,
      f (q ++ [Cmd.startRoot root.tag root.data]) =
        q ++ Cmd.startRoot root.tag root.data :: inner ∧
      rootShow root f q =
        q ++ Cmd.startRoot root.tag root.data :: (inner ++ [Cmd.endRoot root.tag])) ∧
    (∃ inner,
      g (q ++ [Cmd.startContainer c.tag c.data]) =
        q ++ Cmd.startContainer c.tag c.data :: inner ∧
      uiShow c r g q =
        q ++ Cmd.startContainer c.tag c.data ::
          (inner ++ [Cmd.endContainer c.tag r])) := by
  obtain ⟨df, hdf⟩ := hf (q ++ [Cmd.startRoot root.tag root.data])
  obtain ⟨dg, hdg⟩ := hg (q ++ [Cmd.startContainer c.tag c.data])
  refine ⟨⟨df, ?_, ?_⟩, ⟨dg, ?_, ?_⟩⟩ <;>
    simp [rootShow, uiShow, hdf, hdg]

/-- C1 witness: evaluate the builder verbs on closures that enqueue a
single widget command each. -/
theorem show_enqueues_open_build_close_witness :
    (∃ inner,
      (fun q' => q' ++ [Cmd.widget 5 Resp.noop]) ([] ++ [Cmd.startRoot 0 10]) =
        [] ++ Cmd.startRoot 0 10 :: inner ∧
      rootShow ⟨0, 10⟩ (fun q' => q' ++ [Cmd.widget 5 Resp.noop]) [] =
        [] ++ Cmd.startRoot 0 10 :: (inner ++ [Cmd.endRoot 0])) ∧
    (∃ inner,
      (fun q' => q' ++ [Cmd.widget 6 Resp.noop]) ([] ++ [Cmd.startContainer 1 11]) =
        [] ++ Cmd.startContainer 1 11 :: inner ∧
      uiShow ⟨1, 11⟩ Resp.noop (fun q' => q' ++ [Cmd.widget 6 Resp.noop]) [] =
        [] ++ Cmd.startContainer 1 11 ::
          (inner ++ [Cmd.endContainer 1 Resp.noop])) :=
  show_enqueues_open_build_close ⟨0, 10⟩ ⟨1, 11⟩ Resp.noop
    (fun q' => q' ++ [Cmd.widget 5 Resp.noop])
    (fun q' => q' ++ [Cmd.widget 6 Resp.noop]) []
    (fun _ => ⟨[Cmd.widget 5 Resp.noop], rfl⟩)
    (fun _ => ⟨[Cmd.widget 6 Resp.noop], rfl⟩)

/-- C7: the no-op responder `()` discards the result and leaves the
world unchanged; a `SystemResponder` invokes its cached computation unit
exactly once with the widget's result as the unit's sole input, ignores
the unit's own output, and emits no diagnostic. -/
theorem respond_noop_discards_system_invokes_once (w : SimWorld) (res k : Nat)
    (hk : k ∉ w.broken) :
    Resp.respond .noop w res = w ∧
    (Resp.respond (.system k) w res).invocations = w.invocations ++ [(k, res)] ∧
    (Resp.respond (.system k) w res).warnings = w.warnings ∧
    (Resp.respond (.system k) w res).stack = w.stack := by
  refine ⟨rfl, ?_, ?_, ?_⟩ <;> simp [Resp.respond, runResponseSystem, hk]

/-- C7 witness: evaluate both responders on a concrete world and
result. -/
theorem respond_noop_discards_system_invokes_once_witness :
    Resp.respond .noop baseWorld 3 = baseWorld ∧
    (Resp.respond (.system 2) baseWorld 3).invocations =
      baseWorld.invocations ++ [(2, 3)] ∧
    (Resp.respond (.system 2) baseWorld 3).warnings = baseWorld.warnings ∧
    (Resp.respond (.system 2) baseWorld 3).stack = baseWorld.stack :=
  respond_noop_discards_system_invokes_once baseWorld 3 2 (by decide)

/-- C10: when running the cached unit fails (its key is in the broken
set, i.e. `run_system_cached_with` returns an error), the error is
silently discarded: `respond` behaves exactly like the no-op responder
and emits no diagnostic. -/
theorem respond_system_error_silently_discarded (w : SimWorld) (res k : Nat)
    (hk : k ∈ w.broken) :
    Resp.respond (.system k) w res = Resp.respond .noop w res ∧
    (Resp.respond (.system k) w res).warnings = w.warnings := by
  constructor <;> simp [Resp.respond, runResponseSystem, hk]

/-- C10 witness: evaluate the failing responder on a concrete world with
a broken unit key. -/
theorem respond_system_error_silently_discarded_witness :
    Resp.respond (.system 2) { baseWorld with broken := [2] } 3 =
      Resp.respond .noop { baseWorld with broken := [2] } 3 ∧
    (Resp.respond (.system 2) { baseWorld with broken := [2] } 3).warnings =
      ({ baseWorld with broken := [2] } : SimWorld).warnings :=
  respond_system_error_silently_discarded { baseWorld with broken := [2] } 3 2
    (by decide)

/-- C8: each `run_cached_with` invocation delivers to the unit exactly
the extra value supplied at that call site, paired with the current
region's content handle; across two successive calls each call sees its
own extra value, and the cache (the registry, keyed by the unit's type
only) gains at most the key — the extra value is never cached. -/
theorem run_cached_with_fresh_extra (wu : WUi) (k e₁ e₂ : Nat)
    (hk : k ∉ wu.world.broken) :
    ((wu.run_cached_with k e₁).1.run_cached_with k e₂).1.world.drawInvocations =
      wu.world.drawInvocations ++ [(k, wu.ui, e₁), (k, wu.ui, e₂)] ∧
    ((wu.run_cached_with k e₁).1.run_cached_with k e₂).1.world.registry =
      (if k ∈ wu.world.registry then wu.world.registry
       else wu.world.registry ++ [k]) ∧
    (wu.run_cached_with k e₁).1.ui = wu.ui ∧
    ((wu.run_cached_with k e₁).1.run_cached_with k e₂).1.ui = wu.ui := by
  by_cases hr : k ∈ wu.world.registry <;>
    simp [WUi.run_cached_with, runDrawSystem, hk, hr]

/-- C8 witness: run a concrete unit twice with different extra values
against the same region. -/
theorem run_cached_with_fresh_extra_witness :
    (((WUi.mk baseWorld 9).run_cached_with 4 7).1.run_cached_with 4
        8).1.world.drawInvocations =
      baseWorld.drawInvocations ++ [(4, 9, 7), (4, 9, 8)] ∧
    (((WUi.mk baseWorld 9).run_cached_with 4 7).1.run_cached_with 4
        8).1.world.registry =
      (if 4 ∈ baseWorld.registry then baseWorld.registry
       else baseWorld.registry ++ [4]) ∧
    ((WUi.mk baseWorld 9).run_cached_with 4 7).1.ui = (WUi.mk baseWorld 9).ui ∧
    (((WUi.mk baseWorld 9).run_cached_with 4 7).1.run_cached_with 4
        8).1.ui = (WUi.mk baseWorld 9).ui :=
  run_cached_with_fresh_extra (WUi.mk baseWorld 9) 4 7 8 (by decide)

/-- C9: a tuple of widgets is itself a widget; drawing it equals drawing
each component widget left-to-right against the same region (the state
threads from one component to the next), and its result is the tuple of
the component results in declaration order (shown at arities 2 and 3; the
source macro covers arities 0–16 uniformly). -/
theorem tuple_widget_draws_in_order {α β γ : Type}
    (a : WWidget α) (b : WWidget β) (c : WWidget γ) (ui : WUi) :
    (tupleWidget2 a b).draw ui =
      ((b.draw (a.draw ui).1).1, ((a.draw ui).2, (b.draw (a.draw ui).1).2)) ∧
    (tupleWidget3 a b c).draw ui =
      ((c.draw (b.draw (a.draw ui).1).1).1,
        ((a.draw ui).2, (b.draw (a.draw ui).1).2,
          (c.draw (b.draw (a.draw ui).1).1).2)) :=
  ⟨rfl, rfl⟩

/-- With no egui context and no `UiStack`, every single command warns
exactly once and changes nothing else: the root open aborts before
creating the stack, and every other command hits its missing-resource
guard. -/
theorem applyCmd_no_ctx_no_stack (c : Cmd) (w : SimWorld)
    (hctx : w.ctx = none) (hstk : w.stack = none) :
    (applyCmd c w).ctx = none ∧ (applyCmd c w).stack = none ∧
    (applyCmd c w).draws = w.draws ∧
    (applyCmd c w).rootEnds = w.rootEnds ∧
    (applyCmd c w).containerEnds = w.containerEnds ∧
    (applyCmd c w).invocations = w.invocations ∧
    (applyCmd c w).warnings.length = w.warnings.length + 1 := by
  cases c <;>
    simp [applyCmd, applyStartRoot, applyEndRoot, applyStartContainer,
      applyEndContainer, applyWidget, hctx, hstk]

/-- C3: when no rendering context is available at the open-root command,
only that command aborts (with a report); the `UiStack` is never
created, every subsequent command of the script detects the missing
stack, reports, and no-ops: nothing is drawn, no teardown runs, no
responder fires (zero widget results), and each of the script's commands
contributes exactly one diagnostic. -/
theorem missing_context_aborts_only_that_command (t d : Nat) (rest : List Cmd)
    (w : SimWorld) (hctx : w.ctx = none) (hstk : w.stack = none) :
    (drain (Cmd.startRoot t d :: rest) w).stack = none ∧
    (drain (Cmd.startRoot t d :: rest) w).draws = w.draws ∧
    (drain (Cmd.startRoot t d :: rest) w).rootEnds = w.rootEnds ∧
    (drain (Cmd.startRoot t d :: rest) w).containerEnds = w.containerEnds ∧
    (drain (Cmd.startRoot t d :: rest) w).invocations = w.invocations ∧
    (drain (Cmd.startRoot t d :: rest) w).warnings.length =
      w.warnings.length + (rest.length + 1) := by
  suffices h : ∀ (l : List Cmd) (w' : SimWorld), w'.ctx = none → w'.stack = none →
      (drain l w').ctx = none ∧ (drain l w').stack = none ∧
      (drain l w').draws = w'.draws ∧
      (drain l w').rootEnds = w'.rootEnds ∧
      (drain l w').containerEnds = w'.containerEnds ∧
      (drain l w').invocations = w'.invocations ∧
      (drain l w').warnings.length = w'.warnings.length + l.length by
    obtain ⟨_, h2, h3, h4, h5, h6, h7⟩ :=
      h (Cmd.startRoot t d :: rest) w hctx hstk
    exact ⟨h2, h3, h4, h5, h6, by simpa [Nat.add_comm] using h7⟩
  intro l
  induction l with
  | nil => intro w' h1 h2; simp [drain, h1, h2]
  | cons c l ih =>
    intro w' h1 h2
    obtain ⟨g1, g2, g3, g4, g5, g6, g7⟩ := applyCmd_no_ctx_no_stack c w' h1 h2
    obtain ⟨i1, i2, i3, i4, i5, i6, i7⟩ := ih (applyCmd c w') g1 g2
    have hd : drain (c :: l) w' = drain l (applyCmd c w') := rfl
    rw [hd]
    refine ⟨i1, i2, i3.trans g3, i4.trans g4, i5.trans g5, i6.trans g6, ?_⟩
    rw [i7, g7]
    simp [List.length_cons]
    omega

/-- C3 witness: a concrete script (root open, container open, widget,
container close, root close) against a world with no egui context. -/
theorem missing_context_aborts_only_that_command_witness :
    (drain (Cmd.startRoot 0 1 ::
        [Cmd.startContainer 1 2, Cmd.widget 5 Resp.noop,
          Cmd.endContainer 1 Resp.noop, Cmd.endRoot 0]) noCtxWorld).stack = none ∧
    (drain (Cmd.startRoot 0 1 ::
        [Cmd.startContainer 1 2, Cmd.widget 5 Resp.noop,
          Cmd.endContainer 1 Resp.noop, Cmd.endRoot 0]) noCtxWorld).draws =
      noCtxWorld.draws ∧
    (drain (Cmd.startRoot 0 1 ::
        [Cmd.startContainer 1 2, Cmd.widget 5 Resp.noop,
          Cmd.endContainer 1 Resp.noop, Cmd.endRoot 0]) noCtxWorld).rootEnds =
      noCtxWorld.rootEnds ∧
    (drain (Cmd.startRoot 0 1 ::
        [Cmd.startContainer 1 2, Cmd.widget 5 Resp.noop,
          Cmd.endContainer 1 Resp.noop, Cmd.endRoot 0]) noCtxWorld).containerEnds =
      noCtxWorld.containerEnds ∧
    (drain (Cmd.startRoot 0 1 ::
        [Cmd.startContainer 1 2, Cmd.widget 5 Resp.noop,
          Cmd.endContainer 1 Resp.noop, Cmd.endRoot 0]) noCtxWorld).invocations =
      noCtxWorld.invocations ∧
    (drain (Cmd.startRoot 0 1 ::
        [Cmd.startContainer 1 2, Cmd.widget 5 Resp.noop,
          Cmd.endContainer 1 Resp.noop, Cmd.endRoot 0]) noCtxWorld).warnings.length =
      noCtxWorld.warnings.length +
        ([Cmd.startContainer 1 2, Cmd.widget 5 Resp.noop,
          Cmd.endContainer 1 Resp.noop, Cmd.endRoot 0].length + 1) :=
  missing_context_aborts_only_that_command 0 1
    [Cmd.startContainer 1 2, Cmd.widget 5 Resp.noop,
      Cmd.endContainer 1 Resp.noop, Cmd.endRoot 0] noCtxWorld rfl rfl

/-- The commands a `UiCommands` build closure can enqueue (`add`,
`show`): container and widget commands, never root commands. -/
def Cmd.isNested : Cmd → Bool
| .startRoot _ _ => false
| .endRoot _ => false
| .startContainer _ _ => true
| .endContainer _ _ => true
| .widget _ _ => true

/-- Container and widget commands never insert or remove the `UiStack`
resource: its presence is untouched by every nested command. -/
theorem applyCmd_nested_isSome (c : Cmd) (w : SimWorld) (h : c.isNested = true) :
    (applyCmd c w).stack.isSome = w.stack.isSome := by
  cases c with
  | startRoot t d => exact absurd h (by simp [Cmd.isNested])
  | endRoot t => exact absurd h (by simp [Cmd.isNested])
  | startContainer t d =>
    cases hs : w.stack with
    | none => simp [applyCmd, applyStartContainer, hs]
    | some stk =>
      cases ht : stk.topEntry <;>
        simp [applyCmd, applyStartContainer, hs, ht]
  | endContainer t r =>
    cases hs : w.stack with
    | none => simp [applyCmd, applyEndContainer, hs]
    | some stk =>
      rcases hp : stk.pop t with ⟨o, rest⟩
      cases o with
      | none => simp [applyCmd, applyEndContainer, hs, hp]
      | some e =>
        cases ht : rest.topEntry <;>
          simp [applyCmd, applyEndContainer, hs, hp, ht]
  | widget wd r =>
    cases hs : w.stack with
    | none => simp [applyCmd, applyWidget, hs]
    | some stk =>
      cases ht : stk.topEntry <;> simp [applyCmd, applyWidget, hs, ht]

/-- Draining any sequence of nested (container/widget) commands leaves
the presence of the `UiStack` resource unchanged. -/
theorem drain_nested_isSome (l : List Cmd) (w : SimWorld)
    (h : ∀ c ∈ l, c.isNested = true) :
    (drain l w).stack.isSome = w.stack.isSome := by
  induction l generalizing w with
  | nil => rfl
  | cons c l ih =>
    have hc := h c (by simp)
    have hl : ∀ c' ∈ l, c'.isNested = true := fun c' hc' => h c' (by simp [hc'])
    calc (drain (c :: l) w).stack.isSome
        = (drain l (applyCmd c w)).stack.isSome := rfl
      _ = (applyCmd c w).stack.isSome := ih (applyCmd c w) hl
      _ = w.stack.isSome := applyCmd_nested_isSome c w hc

/-- The top-level close always leaves the world without a `UiStack`
resource. -/
theorem applyEndRoot_stack (t : Nat) (w : SimWorld) :
    (applyEndRoot t w).stack = none := by
  cases hs : w.stack with
  | none => simp [applyEndRoot, hs]
  | some stk =>
    cases hp : (stk.pop t).1 <;> by_cases hl : stk.len ≠ 1 <;>
      simp [applyEndRoot, hs, hp, hl]

/-- C4: at most one `UiStack` exists (the world holds at most one such
resource); along a builder script it is created exactly when the
top-level open command succeeds (an available context) and destroyed
exactly by the matching top-level close: after `k` of the script's
commands the resource exists iff the context was available, the open has
run, and the close has not. -/
theorem stack_exists_exactly_during_build (root : RootSpec) (t' : Nat)
    (inner : List Cmd) (w : SimWorld)
    (hstk : w.stack = none)
    (hinner : ∀ c ∈ inner, c.isNested = true)
    (k : Nat)
    (hk : k ≤ (Cmd.startRoot root.tag root.data :: inner ++ [Cmd.endRoot t']).length) :
    ((drain ((Cmd.startRoot root.tag root.data :: inner ++ [Cmd.endRoot t']).take k)
        w).stack).isSome = true ↔
      (w.ctx.isSome = true ∧ 1 ≤ k ∧
        k < (Cmd.startRoot root.tag root.data :: inner ++ [Cmd.endRoot t']).length) := by
  simp only [List.cons_append] at hk ⊢
  by_cases hk0 : k = 0
  · subst hk0
    simp [drain, hstk]
  · obtain ⟨n, rfl⟩ := Nat.exists_eq_succ_of_ne_zero hk0
    simp only [Nat.succ_eq_add_one] at hk ⊢
    have hlen : (Cmd.startRoot root.tag root.data ::
        (inner ++ [Cmd.endRoot t'])).length = inner.length + 2 := by simp
    have hcons : (Cmd.startRoot root.tag root.data ::
        (inner ++ [Cmd.endRoot t'])).take (n + 1) =
          Cmd.startRoot root.tag root.data :: (inner ++ [Cmd.endRoot t']).take n := rfl
    rw [hcons]
    by_cases hn : n ≤ inner.length
    · have htake : (inner ++ [Cmd.endRoot t']).take n = inner.take n :=
        List.take_append_of_le_length hn
      rw [htake]
      have hmem : ∀ c ∈ inner.take n, c.isNested = true :=
        fun c hc => hinner c (List.take_subset n inner hc)
      have hdrain :
          (drain (Cmd.startRoot root.tag root.data :: inner.take n) w).stack.isSome
            = (applyStartRoot root.tag root.data w).stack.isSome := by
        have hstep : drain (Cmd.startRoot root.tag root.data :: inner.take n) w
            = drain (inner.take n) (applyStartRoot root.tag root.data w) := rfl
        rw [hstep]
        exact drain_nested_isSome _ _ hmem
      rw [hdrain]
      cases hc : w.ctx with
      | none => simp [applyStartRoot, hc, hstk]
      | some c0 =>
        simp only [applyStartRoot, hc, hlen]
        simp
        omega
    · have hn' : n = inner.length + 1 := by
        rw [hlen] at hk
        omega
      subst hn'
      have htake : (inner ++ [Cmd.endRoot t']).take (inner.length + 1)
          = inner ++ [Cmd.endRoot t'] := by
        apply List.take_of_length_le
        simp
      rw [htake]
      have hsplit :
          drain (Cmd.startRoot root.tag root.data :: (inner ++ [Cmd.endRoot t'])) w
            = applyEndRoot t' (drain inner (applyStartRoot root.tag root.data w)) := by
        show drain (inner ++ [Cmd.endRoot t']) (applyStartRoot root.tag root.data w) = _
        rw [drain, List.foldl_append]
        rfl
      rw [hsplit, applyEndRoot_stack]
      simp [hlen]

/-- C4 witness: evaluate the lifecycle characterization at prefix length
2 of a concrete script of length 4. -/
theorem stack_exists_exactly_during_build_witness :
    ((drain ((Cmd.startRoot 0 10 ::
        [Cmd.startContainer 1 2, Cmd.endContainer 1 Resp.noop] ++
          [Cmd.endRoot 0]).take 2) baseWorld).stack).isSome = true ↔
      (baseWorld.ctx.isSome = true ∧ 1 ≤ 2 ∧
        2 < (Cmd.startRoot 0 10 ::
          [Cmd.startContainer 1 2, Cmd.endContainer 1 Resp.noop] ++
            [Cmd.endRoot 0]).length) :=
  stack_exists_exactly_during_build ⟨0, 10⟩ 0
    [Cmd.startContainer 1 2, Cmd.endContainer 1 Resp.noop] baseWorld rfl
    (by decide) 2 (by decide)

/-- Balanced sequences of container open/close commands, with each close
carrying the same teardown-data type (tag) as its matching open — the
shape `UiCommands::show` always enqueues. -/
inductive BalancedCmds : List Cmd → Prop
| nil : BalancedCmds []
| node (t d : Nat) (r : Resp) (inner rest : List Cmd) :
    BalancedCmds inner → BalancedCmds rest →
    BalancedCmds (Cmd.startContainer t d :: inner ++ Cmd.endContainer t r :: rest)

/-- C5: draining any balanced sequence of container open/close commands
against a live, non-empty region stack returns the stack to its original
depth (indeed to the original tag profile): every applied open pushes
exactly one entry and its matching close pops exactly that entry. -/
theorem balanced_drain_preserves_depth {l : List Cmd} (hb : BalancedCmds l) :
    ∀ (w : SimWorld) (stk : UiStack), w.stack = some stk → stk ≠ [] →
      ∃ stk' : UiStack, (drain l w).stack = some stk' ∧
        stk'.map Entry.tag = stk.map Entry.tag ∧ stk'.len = stk.len := by
  induction hb with
  | nil =>
    intro w stk hs _
    exact ⟨stk, hs, rfl, rfl⟩
  | node t d r inner rest hinner hrest ihInner ihRest =>
    intro w stk hs hne
    have hopen : (applyStartContainer t d w).stack = some (⟨t, d⟩ :: stk) := by
      obtain ⟨e0, stk0, rfl⟩ : ∃ e0 stk0, stk = e0 :: stk0 := by
        cases stk with
        | nil => exact absurd rfl hne
        | cons a b => exact ⟨a, b, rfl⟩
      simp [applyStartContainer, hs, UiStack.topEntry, UiStack.push]
    obtain ⟨stk2, hstk2, htags2, hlen2⟩ :=
      ihInner (applyStartContainer t d w) (⟨t, d⟩ :: stk) hopen (by simp)
    obtain ⟨e2, rest2, rfl⟩ : ∃ e2 rest2, stk2 = e2 :: rest2 := by
      cases stk2 with
      | nil => simp at htags2
      | cons a b => exact ⟨a, b, rfl⟩
    simp only [List.map_cons, List.cons.injEq] at htags2
    obtain ⟨he2, hrest2⟩ := htags2
    have hrest2ne : rest2 ≠ [] := by
      intro h
      rw [h] at hrest2
      exact hne (List.map_eq_nil_iff.mp hrest2.symm)
    have hclose :
        (applyEndContainer t r (drain inner (applyStartContainer t d w))).stack
          = some rest2 := by
      obtain ⟨f0, rest3, rfl⟩ : ∃ f0 rest3, rest2 = f0 :: rest3 := by
        cases rest2 with
        | nil => exact absurd rfl hrest2ne
        | cons a b => exact ⟨a, b, rfl⟩
      cases r <;>
        simp [applyEndContainer, hstk2, UiStack.pop, he2, UiStack.topEntry]
    obtain ⟨stk', h1, h2, h3⟩ :=
      ihRest (applyEndContainer t r (drain inner (applyStartContainer t d w)))
        rest2 hclose hrest2ne
    have hsplit :
        drain ((Cmd.startContainer t d :: inner) ++ (Cmd.endContainer t r :: rest)) w
          = drain rest
              (applyEndContainer t r (drain inner (applyStartContainer t d w))) := by
      rw [drain, List.foldl_append]
      rfl
    refine ⟨stk', ?_, ?_, ?_⟩
    · rw [hsplit]
      exact h1
    · rw [h2, hrest2]
    · have hlenr : rest2.length = stk.length := by
        have := congrArg List.length hrest2
        simpa using this
      have : stk'.length = stk.length := by
        have := congrArg List.length h2
        simp at this
        omega
      simpa [UiStack.len] using this

/-- C5 witness: a concrete balanced pair of open/close commands against
a stack holding one root entry. -/
theorem balanced_drain_preserves_depth_witness :
    ∃ stk' : UiStack,
      (drain (Cmd.startContainer 1 5 :: [] ++ Cmd.endContainer 1 Resp.noop :: [])
        { baseWorld with stack := some [⟨0, 7⟩] }).stack = some stk' ∧
      stk'.map Entry.tag = List.map Entry.tag ([⟨0, 7⟩] : UiStack) ∧
      stk'.len = UiStack.len [⟨0, 7⟩] :=
  balanced_drain_preserves_depth
    (BalancedCmds.node 1 5 Resp.noop [] [] BalancedCmds.nil BalancedCmds.nil)
    { baseWorld with stack := some [⟨0, 7⟩] } [⟨0, 7⟩] rfl (by decide)

/-- C2 (amended): when the top-level close runs against a live stack it
always removes the stack resource (afterwards no stack exists, hence
depth 0); when the depth is not 1 it reports the unbalanced-nesting
warning and still proceeds; the root's teardown (`EndRoot::end`) then
runs only if the popped top entry is of the root's own teardown type —
with leftover container data of a different type on top, the typed pop
yields nothing, a missing-root diagnostic follows, and the teardown is
skipped. -/
theorem end_root_removes_stack_and_warns (t : Nat) (w : SimWorld)
    (e : Entry) (rest : List Entry)
    (hs : w.stack = some (e :: rest)) :
    (applyEndRoot t w).stack = none ∧
    (rest ≠ [] →
      (applyEndRoot t w).warnings =
        w.warnings ++ [Warning.containerNotEnded] ++
          (if e.tag = t then [] else [Warning.noRootStarted])) ∧
    (e.tag = t →
      (applyEndRoot t w).rootEnds = w.rootEnds ++ [(e.tag, e.data)]) ∧
    (e.tag ≠ t → (applyEndRoot t w).rootEnds = w.rootEnds) := by
  by_cases he : e.tag = t <;> by_cases hr : rest = [] <;>
    simp [applyEndRoot, hs, UiStack.pop, UiStack.len, he, hr]

/-- C2 witness: close a root of type tag 0 over a stack whose top is
leftover container data of type tag 1 (depth 3). -/
theorem end_root_removes_stack_and_warns_witness :
    (applyEndRoot 0
        { baseWorld with stack := some [⟨1, 12⟩, ⟨1, 11⟩, ⟨0, 10⟩] }).stack = none ∧
    (([⟨1, 11⟩, ⟨0, 10⟩] : List Entry) ≠ [] →
      (applyEndRoot 0
          { baseWorld with stack := some [⟨1, 12⟩, ⟨1, 11⟩, ⟨0, 10⟩] }).warnings =
        ({ baseWorld with
            stack := some [⟨1, 12⟩, ⟨1, 11⟩, ⟨0, 10⟩] } : SimWorld).warnings ++
          [Warning.containerNotEnded] ++
          (if (⟨1, 12⟩ : Entry).tag = 0 then [] else [Warning.noRootStarted])) ∧
    ((⟨1, 12⟩ : Entry).tag = 0 →
      (applyEndRoot 0
          { baseWorld with stack := some [⟨1, 12⟩, ⟨1, 11⟩, ⟨0, 10⟩] }).rootEnds =
        ({ baseWorld with
            stack := some [⟨1, 12⟩, ⟨1, 11⟩, ⟨0, 10⟩] } : SimWorld).rootEnds ++
          [((⟨1, 12⟩ : Entry).tag, (⟨1, 12⟩ : Entry).data)]) ∧
    ((⟨1, 12⟩ : Entry).tag ≠ 0 →
      (applyEndRoot 0
          { baseWorld with stack := some [⟨1, 12⟩, ⟨1, 11⟩, ⟨0, 10⟩] }).rootEnds =
        ({ baseWorld with
            stack := some [⟨1, 12⟩, ⟨1, 11⟩, ⟨0, 10⟩] } : SimWorld).rootEnds) :=
  end_root_removes_stack_and_warns 0
    { baseWorld with stack := some [⟨1, 12⟩, ⟨1, 11⟩, ⟨0, 10⟩] }
    ⟨1, 12⟩ [⟨1, 11⟩, ⟨0, 10⟩] rfl

/-- C2 counterexample (spec scenario D with the root open included so a
stack exists): after open-root, open-container, open-container (nested,
unclosed), close-top-level, the unbalanced-nesting warning is reported
and the stack resource is gone — but `EndRoot::end` never ran (no root
teardown was finalized), contrary to the claim's "still pops down and
finalizes … with the root's teardown finalized". -/
theorem end_root_unbalanced_skips_teardown_cex :
    (drain [Cmd.startRoot 0 10, Cmd.startContainer 1 11,
        Cmd.startContainer 1 12, Cmd.endRoot 0] baseWorld).stack = none ∧
    Warning.containerNotEnded ∈
      (drain [Cmd.startRoot 0 10, Cmd.startContainer 1 11,
          Cmd.startContainer 1 12, Cmd.endRoot 0] baseWorld).warnings ∧
    (drain [Cmd.startRoot 0 10, Cmd.startContainer 1 11,
        Cmd.startContainer 1 12, Cmd.endRoot 0] baseWorld).rootEnds = [] := by
  decide
